import Mathlib

/-!
A shallow embedding of `soramimi/ProcessExample` (`src/command.cpp`) in Lean 4,
with theorems checking the repository's natural-language specification.

The C string `cmd` is modelled as its list of characters; a C string contains
no NUL, so the `c == 0` end-of-string test of the scan loop corresponds to the
empty-list case of the recursion.  OS interaction (pipe, fork, execvp,
CreateProcess, read) is modelled by an oracle recording whether each call
succeeds and in which chunks `read` delivers the pipe's bytes; each modelled
function also returns the ordered trace of OS events it performs.
-/

namespace ProcessExample

/-- The NUL character, the value of the `char quote = 0` sentinel in the
POSIX `command` tokenizer. -/
def NUL : Char := Char.ofNat 0

/-- C `isspace` in the default locale: space, tab, newline, vertical tab,
form feed, carriage return. -/
def isSpaceC (c : Char) : Bool :=
  c == ' ' || c == Char.ofNat 9 || c == Char.ofNat 10 ||
  c == Char.ofNat 11 || c == Char.ofNat 12 || c == Char.ofNat 13

/-- Outer-quote stripping at token emission (command.cpp lines 230-233):
when the raw span has length at least 2 and begins and ends with a double
quote, drop the first and last character. -/
def stripQuotes (t : List Char) : List Char :=
  if 2 ≤ t.length && t.headD NUL == '"' && t.getLastD NUL == '"' then
    (t.drop 1).dropLast
  else t

/-- Token emission (command.cpp lines 228-235): the pending raw span
`[left, ptr)` is emitted, after outer-quote stripping, only if it is
non-empty. -/
def emitTok (pending : List Char) (acc : List (List Char)) : List (List Char) :=
  if pending.isEmpty then acc else acc ++ [stripQuotes pending]

/-- The scan loop of the POSIX `command` (command.cpp lines 220-250).
`pending` is the raw span from `left` to `ptr`; `quote` is the `char quote`
variable (NUL when unquoted).  The branch order is exactly the source's:
end/whitespace, then `c == '"'`, then `c == quote`, then default. -/
def scan : List Char → Char → List Char → List (List Char) → List (List Char)
  | [], _, pending, acc => emitTok pending acc
  | c :: rest, quote, pending, acc =>
    if quote == NUL && isSpaceC c then
      scan rest quote [] (emitTok pending acc)
    else if c == '"' then
      scan rest '"' (pending ++ [c]) acc
    else if c == quote then
      scan rest NUL (pending ++ [c]) acc
    else
      scan rest quote (pending ++ [c]) acc

/-- The tokenizer of the POSIX `command` (command.cpp lines 212-250):
scan the whole command string starting unquoted with an empty pending span. -/
def tokenize (cmd : List Char) : List (List Char) :=
  scan cmd NUL [] []

/-- Fuel-indexed version of `scan`, mirroring the loop iteration by
iteration: each iteration consumes one unit of fuel and either advances past
exactly one character or, at end of string, exits the loop. -/
def scanFuel : Nat → List Char → Char → List Char → List (List Char) →
    Option (List (List Char))
  | 0, _, _, _, _ => none
  | _ + 1, [], _, pending, acc => some (emitTok pending acc)
  | fuel + 1, c :: rest, quote, pending, acc =>
    if quote == NUL && isSpaceC c then
      scanFuel fuel rest quote [] (emitTok pending acc)
    else if c == '"' then
      scanFuel fuel rest '"' (pending ++ [c]) acc
    else if c == quote then
      scanFuel fuel rest NUL (pending ++ [c]) acc
    else
      scanFuel fuel rest quote (pending ++ [c]) acc

namespace Posix

/-- The C constant `EXIT_FAILURE`. -/
def EXIT_FAILURE : Nat := 1

/-- OS events performed by the parent on the POSIX path, in order. -/
inductive PEvent where
  | createPipe
  | forkChild
  | closeWriteEnd
  | readChunk (n : Nat)
  | readZero
  | closeReadEnd
  | waitChild
deriving DecidableEq

/-- Result of a POSIX-path call: either a normal return of the optional
captured output, or termination of the whole calling process via `exit`. -/
inductive PResult where
  | ret (r : Option (List Char))
  | fatalExit (code : Nat)
deriving DecidableEq

/-- Oracle for the OS behaviour seen by `_command`: whether `pipe`, `fork`
and `execvp` succeed, the bytes the named program writes to stdout when
`execvp` succeeds, and the chunks in which `read` delivers the pipe's
bytes to the parent. -/
structure OSOracle where
  pipeOk : Bool
  forkOk : Bool
  execOk : Bool
  progOutput : List Char
  chunks : List (List Char)
deriving DecidableEq

/-- The bytes that arrive on the pipe: the program's stdout when `execvp`
succeeds; nothing when it fails (the failing child writes only `perror`
output to stderr and exits). -/
def pipeBytes (os : OSOracle) : List Char :=
  if os.execOk then os.progOutput else []

/-- Well-formedness of the oracle: `read` delivers exactly the pipe's bytes,
in order, as non-empty chunks of at most `sizeof(buffer) - 1 = 1023` bytes
each, followed by a zero-byte read. -/
def OSOracle.WF (os : OSOracle) : Prop :=
  os.chunks.flatten = pipeBytes os ∧ ∀ ch ∈ os.chunks, ch ≠ [] ∧ ch.length ≤ 1023

/-- The parent's read loop (command.cpp lines 180-183): successive `read`
calls append each delivered chunk to `ret` until a zero-byte read ends the
loop.  Returns the accumulated output and the read events in order. -/
def readLoop : List (List Char) → List Char × List PEvent
  | [] => ([], [PEvent.readZero])
  | ch :: rest =>
    let p := readLoop rest
    (ch ++ p.1, PEvent.readChunk ch.length :: p.2)

/-- Model of `_command` (command.cpp lines 136-190), parent side.  `pipe`
failure and `fork` failure each `perror` and `exit(EXIT_FAILURE)`,
terminating the whole process.  Otherwise the parent closes the write end,
runs the read loop to a zero-byte read, closes the read end, waits for the
child, and returns the accumulated output (present even when the child's
`execvp` failed).  The terminating null pointer of `argv` is left implicit. -/
def _command (argv : List (List Char)) (os : OSOracle) : PResult × List PEvent :=
  if !os.pipeOk then
    (PResult.fatalExit EXIT_FAILURE, [PEvent.createPipe])
  else if !os.forkOk then
    (PResult.fatalExit EXIT_FAILURE, [PEvent.createPipe, PEvent.forkChild])
  else
    let p := readLoop os.chunks
    (PResult.ret (some p.1),
      [PEvent.createPipe, PEvent.forkChild, PEvent.closeWriteEnd] ++ p.2 ++
        [PEvent.closeReadEnd, PEvent.waitChild])

/-- Steps performed by the child process, in order. -/
inductive CEvent where
  | putsParentStdout (s : List Char)
  | closeReadEnd
  | dup2StdoutToPipe
  | closeWriteEnd
  | execvpCall (prog : List Char)
  | perrorExecvp
  | exitChild (code : Nat)
deriving DecidableEq

/-- The child's step sequence (command.cpp lines 158-174): `puts(argv[0])`
to the stdout inherited from the parent, close the pipe's read end, `dup2`
stdout onto the pipe's write end, close the original write end, `execvp`;
when `execvp` fails, `perror` and `exit(EXIT_FAILURE)`. -/
def childSteps (argv : List (List Char)) (execOk : Bool) : List CEvent :=
  [CEvent.putsParentStdout (argv.headD [] ++ [Char.ofNat 10]),
   CEvent.closeReadEnd, CEvent.dup2StdoutToPipe, CEvent.closeWriteEnd,
   CEvent.execvpCall (argv.headD [])] ++
  (if execOk then [] else [CEvent.perrorExecvp, CEvent.exitChild EXIT_FAILURE])

/-- Model of the POSIX `command` (command.cpp lines 210-262): tokenize the
command string; if any tokens resulted, build the argument vector (the
terminating null pointer is left implicit) and delegate to `_command`;
otherwise return `std::nullopt` without any OS call. -/
def command (cmd : List Char) (os : OSOracle) : PResult × List PEvent :=
  let vec := tokenize cmd
  if vec.length > 0 then _command vec os
  else (PResult.ret none, [])

end Posix

namespace Win

/-- OS events performed by the Windows-path `command`, in order. -/
inductive WEvent where
  | createPipe
  | setHandleInfo
  | dupCmdString
  | createProcessCall
  | closeHandleWrite
  | closeHandleRead
  | closeHandleProcess
  | closeHandleThread
  | freeCmdCopy
  | readChunk (n : Nat)
  | waitProcess
deriving DecidableEq

/-- Oracle for the OS behaviour seen by the Windows-path `command`. -/
structure WinOracle where
  createPipeOk : Bool
  createProcessOk : Bool
  chunks : List (List Char)
deriving DecidableEq

/-- The Windows read loop (command.cpp lines 99-102): successive `ReadFile`
calls append each delivered chunk until `ReadFile` fails or delivers zero
bytes. -/
def readLoopW : List (List Char) → List Char × List WEvent
  | [] => ([], [])
  | ch :: rest =>
    let p := readLoopW rest
    (ch ++ p.1, WEvent.readChunk ch.length :: p.2)

/-- Model of the Windows `command` (command.cpp lines 36-111).  `CreatePipe`
failure returns `std::nullopt` immediately; `CreateProcessA` failure closes
the write handle, closes the read handle, frees the `strdup`ed mutable copy
of the command line and returns `std::nullopt`; otherwise the copy is freed,
the write handle closed, the read loop run, then the read handle closed, the
process waited for and the process and thread handles closed. -/
def command (cmd : List Char) (os : WinOracle) : Option (List Char) × List WEvent :=
  if !os.createPipeOk then
    (none, [WEvent.createPipe])
  else if !os.createProcessOk then
    (none, [WEvent.createPipe, WEvent.setHandleInfo, WEvent.dupCmdString,
            WEvent.createProcessCall, WEvent.closeHandleWrite,
            WEvent.closeHandleRead, WEvent.freeCmdCopy])
  else
    let p := readLoopW os.chunks
    (some p.1,
      [WEvent.createPipe, WEvent.setHandleInfo, WEvent.dupCmdString,
       WEvent.createProcessCall, WEvent.freeCmdCopy, WEvent.closeHandleWrite] ++
        p.2 ++
        [WEvent.closeHandleRead, WEvent.waitProcess,
         WEvent.closeHandleProcess, WEvent.closeHandleThread])

end Win

/-! ## Helper lemmas -/

/-- When the raw span does not begin with a double quote, outer-quote
stripping leaves it unchanged. -/
theorem stripQuotes_cons_ne (c : Char) (cs : List Char) (h : c ≠ '"') :
    stripQuotes (c :: cs) = c :: cs := by
  unfold stripQuotes
  rw [if_neg]
  simp [h]

/-- Token emission preserves "all emitted tokens are non-empty" when no
character of the pending span is a double quote. -/
theorem emitTok_ne_nil (pending : List Char) (acc : List (List Char))
    (hp : ∀ c ∈ pending, c ≠ '"') (ha : ∀ t ∈ acc, t ≠ []) :
    ∀ t ∈ emitTok pending acc, t ≠ [] := by
  intro t ht
  unfold emitTok at ht
  cases pending with
  | nil => simpa using ha t ht
  | cons c cs =>
    simp at ht
    rcases ht with ht | ht
    · exact ha t ht
    · subst ht
      rw [stripQuotes_cons_ne c cs (hp c (by simp))]
      simp

/-- Scan invariant: starting from quote-free pending span and non-empty
accumulated tokens, a quote-free input yields only non-empty tokens. -/
theorem scan_ne_nil (l : List Char) :
    ∀ (quote : Char) (pending : List Char) (acc : List (List Char)),
      (∀ c ∈ l, c ≠ '"') → (∀ c ∈ pending, c ≠ '"') → (∀ t ∈ acc, t ≠ []) →
      ∀ t ∈ scan l quote pending acc, t ≠ [] := by
  induction l with
  | nil =>
    intro quote pending acc _ hp ha t ht
    exact emitTok_ne_nil pending acc hp ha t ht
  | cons c rest ih =>
    intro quote pending acc hl hp ha t ht
    have hc : c ≠ '"' := hl c (by simp)
    have hrest : ∀ x ∈ rest, x ≠ '"' := fun x hx => hl x (by simp [hx])
    have hpc : ∀ x ∈ pending ++ [c], x ≠ '"' := by
      intro x hx
      rcases List.mem_append.mp hx with hx | hx
      · exact hp x hx
      · simp at hx; subst hx; exact hc
    unfold scan at ht
    by_cases h1 : (quote == NUL && isSpaceC c) = true
    · rw [if_pos h1] at ht
      exact ih quote [] (emitTok pending acc) hrest (by simp)
        (emitTok_ne_nil pending acc hp ha) t ht
    · rw [if_neg h1, if_neg (by simpa using hc)] at ht
      by_cases h3 : (c == quote) = true
      · rw [if_pos h3] at ht
        exact ih NUL (pending ++ [c]) acc hrest hpc ha t ht
      · rw [if_neg h3] at ht
        exact ih quote (pending ++ [c]) acc hrest hpc ha t ht

/-- Scanning an all-whitespace suffix while unquoted with an empty pending
span emits nothing. -/
theorem scan_all_space (l : List Char) (h : ∀ c ∈ l, isSpaceC c = true) :
    ∀ acc, scan l NUL [] acc = acc := by
  induction l with
  | nil => intro acc; rfl
  | cons c rest ih =>
    intro acc
    unfold scan
    rw [if_pos (by simp [h c (by simp)])]
    exact ih (fun x hx => h x (by simp [hx])) acc

/-- The fuel-indexed scan with fuel one more than the remaining input length
computes the same result as the structural scan. -/
theorem scanFuel_eq_scan (l : List Char) :
    ∀ (quote : Char) (pending : List Char) (acc : List (List Char)),
      scanFuel (l.length + 1) l quote pending acc = some (scan l quote pending acc) := by
  induction l with
  | nil => intro quote pending acc; rfl
  | cons c rest ih =>
    intro quote pending acc
    by_cases h1 : (quote == NUL && isSpaceC c) = true
    · simp only [scanFuel, scan, List.length_cons, if_pos h1]
      exact ih quote [] (emitTok pending acc)
    · by_cases h2 : (c == '"') = true
      · simp only [scanFuel, scan, List.length_cons, if_neg h1, if_pos h2]
        exact ih '"' (pending ++ [c]) acc
      · by_cases h3 : (c == quote) = true
        · simp only [scanFuel, scan, List.length_cons, if_neg h1, if_neg h2, if_pos h3]
          exact ih NUL (pending ++ [c]) acc
        · simp only [scanFuel, scan, List.length_cons, if_neg h1, if_neg h2, if_neg h3]
          exact ih quote (pending ++ [c]) acc

/-! ## Claim theorems: tokenizer -/

/-- C1 (evaluation at the failing input): the code does NOT toggle the quote
state on a closing double quote — the `c == '"'` branch precedes and shadows
the `c == quote` branch, so the quote state never returns to unquoted, and
tokenizing `"a" b` yields the single raw token `"a" b` (quotes kept, since
the span does not end with a quote) instead of the two tokens `a`, `b` the
claim describes. -/
theorem tokenize_quote_state_never_resets :
    tokenize ("\"a\" b".toList) = [("\"a\" b".toList)] := by decide

/-- C4: tokenizing `ls -l "my file.txt"` yields exactly `ls`, `-l`,
`my file.txt`, in that order: the enclosing quotes of the third token are
stripped and the interior space preserved. -/
theorem tokenize_quoted_filename_example :
    tokenize ("ls -l \"my file.txt\"".toList) =
      ["ls".toList, "-l".toList, "my file.txt".toList] := by decide

/-- C3 (counterexample): the tokenizer can emit an empty token.  For the
command string consisting of exactly two double quotes, the raw span `""` is
non-empty, so it is emitted, and outer-quote stripping then empties it. -/
theorem tokenize_emits_empty_token_counterexample :
    [] ∈ tokenize ("\"\"".toList) := by decide

/-- C3 (amended): a pending token is emitted only if its RAW span is
non-empty, and the subsequent outer-quote stripping can empty it (only for
the span `""`); hence for every command string without a double-quote
character all emitted tokens are non-empty; consecutive unquoted whitespace
produces no empty tokens (`a  b` yields exactly `a`, `b`); and an
all-whitespace or empty command string yields the empty token sequence. -/
theorem tokenize_tokens_nonempty_amended :
    (∀ s : List Char, (∀ c ∈ s, c ≠ '"') → ∀ t ∈ tokenize s, t ≠ []) ∧
    tokenize ("a  b".toList) = ["a".toList, "b".toList] ∧
    (∀ s : List Char, (∀ c ∈ s, isSpaceC c = true) → tokenize s = []) := by
  refine ⟨?_, by decide, ?_⟩
  · intro s hs t ht
    exact scan_ne_nil s NUL [] [] hs (by simp) (by simp) t ht
  · intro s hs
    exact scan_all_space s hs []

/-- Witness for the amended C3 at concrete inputs. -/
theorem tokenize_tokens_nonempty_amended_witness :
    ("ab".toList ≠ ([] : List Char)) ∧ tokenize ("  ".toList) = [] :=
  ⟨tokenize_tokens_nonempty_amended.1 ("ab".toList) (by decide) ("ab".toList) (by decide),
   tokenize_tokens_nonempty_amended.2.2 ("  ".toList) (by decide)⟩

/-- C10: the tokenizer's scan loop terminates on every finite command
string — each iteration either advances past exactly one character or, at
end of string, exits — so fuel equal to the input length plus one always
suffices, and tokenization is a total function of its input. -/
theorem scan_loop_terminates :
    (∀ (l : List Char) (quote : Char) (pending : List Char) (acc : List (List Char)),
      scanFuel (l.length + 1) l quote pending acc = some (scan l quote pending acc)) ∧
    (∀ s : List Char, scanFuel (s.length + 1) s NUL [] [] = some (tokenize s)) :=
  ⟨scanFuel_eq_scan, fun s => scanFuel_eq_scan s NUL [] []⟩

/-! ## Helper lemmas: POSIX launcher -/

/-- The read loop accumulates exactly the concatenation of the delivered
chunks, in order. -/
theorem readLoop_fst (chunks : List (List Char)) :
    (Posix.readLoop chunks).1 = chunks.flatten := by
  induction chunks with
  | nil => rfl
  | cons ch rest ih => simp [Posix.readLoop, ih]

/-- The read loop always ends with the zero-byte read. -/
theorem readZero_mem_readLoop (chunks : List (List Char)) :
    Posix.PEvent.readZero ∈ (Posix.readLoop chunks).2 := by
  induction chunks with
  | nil => simp [Posix.readLoop]
  | cons ch rest ih => simpa [Posix.readLoop] using ih

/-- When `execvp` fails, a well-formed oracle delivers no chunks: the pipe
carries no bytes and every delivered chunk is non-empty. -/
theorem chunks_nil_of_exec_fail (os : Posix.OSOracle) (he : os.execOk = false)
    (hwf : os.WF) : os.chunks = [] := by
  rcases hwf with ⟨hflat, hne⟩
  rw [Posix.pipeBytes, he] at hflat
  simp at hflat
  cases hch : os.chunks with
  | nil => rfl
  | cons ch rest =>
    rw [hch] at hflat
    simp at hflat
    exact absurd hflat.1 ((hne ch (by rw [hch]; simp)).1)

/-! ## Claim theorems: process launching -/

/-- C5: a command string that tokenizes to the empty token sequence (for
example, empty or all-whitespace) makes `command` return `std::nullopt`
immediately, with no OS interaction at all — no pipe is created and no child
process is spawned. -/
theorem command_no_tokens_returns_nullopt (cmd : List Char) (os : Posix.OSOracle)
    (h : tokenize cmd = []) :
    Posix.command cmd os = (Posix.PResult.ret none, []) := by
  simp [Posix.command, h]

/-- Witness for C5 at the all-whitespace command string. -/
theorem command_no_tokens_returns_nullopt_witness :
    Posix.command ("   ".toList) ⟨true, true, true, [], []⟩ =
      (Posix.PResult.ret none, []) :=
  command_no_tokens_returns_nullopt ("   ".toList) ⟨true, true, true, [], []⟩ (by decide)

/-- C7: on the POSIX path, failure of `pipe` or of `fork` is fatal to the
whole calling process: `_command` performs `exit(EXIT_FAILURE)` instead of
returning a result (absent or otherwise) to the caller. -/
theorem command_setup_failure_fatal (argv : List (List Char)) (os : Posix.OSOracle) :
    (os.pipeOk = false →
      Posix._command argv os =
        (Posix.PResult.fatalExit Posix.EXIT_FAILURE, [Posix.PEvent.createPipe])) ∧
    (os.pipeOk = true → os.forkOk = false →
      Posix._command argv os =
        (Posix.PResult.fatalExit Posix.EXIT_FAILURE,
          [Posix.PEvent.createPipe, Posix.PEvent.forkChild])) := by
  constructor
  · intro h
    simp [Posix._command, h]
  · intro h1 h2
    simp [Posix._command, h1, h2]

/-- Witness for C7 at concrete oracles failing `pipe` and `fork`. -/
theorem command_setup_failure_fatal_witness :
    Posix._command [] ⟨false, true, true, [], []⟩ =
      (Posix.PResult.fatalExit Posix.EXIT_FAILURE, [Posix.PEvent.createPipe]) ∧
    Posix._command [] ⟨true, false, true, [], []⟩ =
      (Posix.PResult.fatalExit Posix.EXIT_FAILURE,
        [Posix.PEvent.createPipe, Posix.PEvent.forkChild]) :=
  ⟨(command_setup_failure_fatal [] ⟨false, true, true, [], []⟩).1 rfl,
   (command_setup_failure_fatal [] ⟨true, false, true, [], []⟩).2 rfl rfl⟩

/-- C2: for a command naming a non-existent program on the fork-based POSIX
path, `command` returns a PRESENT result equal to the empty string, not an
absent one: `fork` succeeds, the child's `execvp` fails and the child exits
with `EXIT_FAILURE`, nothing reaches the pipe, and the parent still runs its
read loop to the zero-byte read and waits for the child before returning. -/
theorem command_exec_failure_returns_present_empty (cmd : List Char)
    (os : Posix.OSOracle) (htok : tokenize cmd ≠ [])
    (hp : os.pipeOk = true) (hf : os.forkOk = true) (he : os.execOk = false)
    (hwf : os.WF) :
    (Posix.command cmd os).1 = Posix.PResult.ret (some []) ∧
    Posix.PEvent.readZero ∈ (Posix.command cmd os).2 ∧
    Posix.PEvent.waitChild ∈ (Posix.command cmd os).2 ∧
    (Posix.childSteps (tokenize cmd) os.execOk).getLast? =
      some (Posix.CEvent.exitChild Posix.EXIT_FAILURE) := by
  have hch := chunks_nil_of_exec_fail os he hwf
  have hlen : (tokenize cmd).length > 0 := List.length_pos.mpr htok
  refine ⟨?_, ?_, ?_, ?_⟩
  · simp [Posix.command, Posix._command, hlen, hp, hf, hch, Posix.readLoop]
  · simp [Posix.command, Posix._command, hlen, hp, hf, hch, Posix.readLoop]
  · simp [Posix.command, Posix._command, hlen, hp, hf, hch, Posix.readLoop]
  · rw [he]
    rfl

/-- Witness for C2 at a concrete command and oracle. -/
theorem command_exec_failure_returns_present_empty_witness :
    (Posix.command ("nosuchprog".toList) ⟨true, true, false, [], []⟩).1 =
      Posix.PResult.ret (some []) ∧
    Posix.PEvent.readZero ∈
      (Posix.command ("nosuchprog".toList) ⟨true, true, false, [], []⟩).2 ∧
    Posix.PEvent.waitChild ∈
      (Posix.command ("nosuchprog".toList) ⟨true, true, false, [], []⟩).2 ∧
    (Posix.childSteps (tokenize ("nosuchprog".toList)) false).getLast? =
      some (Posix.CEvent.exitChild Posix.EXIT_FAILURE) :=
  command_exec_failure_returns_present_empty ("nosuchprog".toList)
    ⟨true, true, false, [], []⟩ (by decide) rfl rfl rfl ⟨by decide, by decide⟩

/-- C6: for a command tokenizing to a non-empty sequence naming a real
executable program that writes known bytes and exits zero, `command` returns
a present result exactly equal to those bytes: the captured output is the
in-order concatenation of every chunk read from the pipe until the zero-byte
read, and the read loop completes before the call returns. -/
theorem command_success_captures_output (cmd : List Char) (os : Posix.OSOracle)
    (htok : tokenize cmd ≠ []) (hp : os.pipeOk = true) (hf : os.forkOk = true)
    (he : os.execOk = true) (hwf : os.WF) :
    (Posix.command cmd os).1 = Posix.PResult.ret (some os.progOutput) ∧
    (Posix.readLoop os.chunks).1 = os.chunks.flatten ∧
    Posix.PEvent.readZero ∈ (Posix.command cmd os).2 := by
  have hflat : os.chunks.flatten = os.progOutput := by
    have h1 := hwf.1
    rwa [Posix.pipeBytes, he, if_pos rfl] at h1
  have hlen : (tokenize cmd).length > 0 := List.length_pos.mpr htok
  refine ⟨?_, readLoop_fst os.chunks, ?_⟩
  · simp [Posix.command, Posix._command, hlen, hp, hf, readLoop_fst, hflat]
  · simp only [Posix.command, Posix._command, hlen, hp, hf]
    simp [List.mem_append, readZero_mem_readLoop]

/-- Witness for C6 at a concrete command, output and chunking. -/
theorem command_success_captures_output_witness :
    (Posix.command ("cat f.txt".toList)
        ⟨true, true, true, "hi".toList, [("hi".toList)]⟩).1 =
      Posix.PResult.ret (some ("hi".toList)) ∧
    (Posix.readLoop [("hi".toList)]).1 = [("hi".toList)].flatten ∧
    Posix.PEvent.readZero ∈
      (Posix.command ("cat f.txt".toList)
        ⟨true, true, true, "hi".toList, [("hi".toList)]⟩).2 :=
  command_success_captures_output ("cat f.txt".toList)
    ⟨true, true, true, "hi".toList, [("hi".toList)]⟩
    (by decide) rfl rfl rfl ⟨by decide, by decide⟩

/-- C9: on the POSIX path the child's very first step writes the first
argument token followed by a newline to the standard output inherited from
the parent — `puts(argv[0])` — and this happens strictly before the step
that redirects standard output into the pipe (`dup2`), for every argument
vector and whether or not `execvp` will succeed. -/
theorem child_puts_argv0_before_redirect (argv : List (List Char)) (execOk : Bool) :
    (Posix.childSteps argv execOk)[0]? =
      some (Posix.CEvent.putsParentStdout (argv.headD [] ++ [Char.ofNat 10])) ∧
    (Posix.childSteps argv execOk)[2]? = some Posix.CEvent.dup2StdoutToPipe := by
  cases execOk <;> exact ⟨rfl, rfl⟩

/-- C8: on the CreateProcess-style Windows path, if `CreatePipe` fails an
absent result is returned immediately (no further OS action); if
`CreateProcessA` fails, both pipe handles are closed and the mutable copy of
the command line is freed before the absent result is returned. -/
theorem win_command_failure_cleanup (cmd : List Char) (os : Win.WinOracle) :
    (os.createPipeOk = false →
      Win.command cmd os = (none, [Win.WEvent.createPipe])) ∧
    (os.createPipeOk = true → os.createProcessOk = false →
      (Win.command cmd os).1 = none ∧
      Win.WEvent.closeHandleWrite ∈ (Win.command cmd os).2 ∧
      Win.WEvent.closeHandleRead ∈ (Win.command cmd os).2 ∧
      Win.WEvent.freeCmdCopy ∈ (Win.command cmd os).2) := by
  constructor
  · intro h
    simp [Win.command, h]
  · intro h1 h2
    simp [Win.command, h1, h2]

/-- Witness for C8 at concrete oracles failing `CreatePipe` and
`CreateProcessA`. -/
theorem win_command_failure_cleanup_witness :
    Win.command ("dir".toList) ⟨false, true, []⟩ =
      (none, [Win.WEvent.createPipe]) ∧
    (Win.command ("dir".toList) ⟨true, false, []⟩).1 = none ∧
    Win.WEvent.freeCmdCopy ∈ (Win.command ("dir".toList) ⟨true, false, []⟩).2 :=
  ⟨(win_command_failure_cleanup ("dir".toList) ⟨false, true, []⟩).1 rfl,
   ((win_command_failure_cleanup ("dir".toList) ⟨true, false, []⟩).2 rfl rfl).1,
   ((win_command_failure_cleanup ("dir".toList) ⟨true, false, []⟩).2 rfl rfl).2.2.2⟩

end ProcessExample
